import Mathlib

/-!
Shallow embedding of the observation reconciliation engine of the
`bahn` repository (`db_monitor/collector.py`, `db_monitor/storage.py`,
`dashboard.py`).

Modelling conventions:
* instants (`datetime` values) are integers counting minutes on a common
  naive local timeline; one hour is `60`;
* `service_date` (an ISO date string in the source, compared as a date by
  the dashboard) is an integer day ordinal — ISO-string order coincides
  with date order, so `<` on the ordinal is faithful;
* Python `str` is Lean `String`; `str.strip` is `String.trim`;
* optional values (`datetime | None`, `ChangeInfo | None`) are `Option`;
* `int((a - b).total_seconds() / 60)` on whole-minute instants is exact
  subtraction `a - b`.
-/

/-- `db_monitor.models.PlannedStop`: one scheduled event for a train. -/
structure PlannedStop where
  train_id : String
  train_name : String
  line : String
  source_station : String
  target_station : String
  planned_departure : Option Int
  planned_arrival : Option Int
  route_label : String
deriving DecidableEq, Repr

/-- `db_monitor.models.ChangeInfo`: per-train change event at one station. -/
structure ChangeInfo where
  train_id : String
  changed_departure : Option Int
  changed_arrival : Option Int
  departure_reason : String
  arrival_reason : String
  canceled : Bool
deriving DecidableEq, Repr

/-- `db_monitor.models.Observation`: the canonical persisted record.
`planned_departure` is total (the builder discards departures without one). -/
structure Observation where
  observation_ts : Int
  service_date : Int
  train_id : String
  train_name : String
  line : String
  route_label : String
  source_station : String
  target_station : String
  planned_departure : Int
  actual_departure : Option Int
  planned_arrival : Option Int
  actual_arrival : Option Int
  delay_minutes : Int
  schedule_deviation_minutes : Int
  arrival_delay_minutes : Int
  arrival_schedule_deviation_minutes : Int
  arrival_observed : Bool
  arrival_info_missing : Bool
  departure_reason : String
  arrival_reason : String
  canceled_departure : Bool
  canceled_arrival : Bool
  canceled : Bool
deriving DecidableEq, Repr

/-- `db_monitor.collector._minutes_delta`: minute difference, `0` when either
side is absent. -/
def minutesDelta (actual planned : Option Int) : Int :=
  match actual, planned with
  | some a, some p => a - p
  | _, _ => 0

/-- The field-level merge rules of `ObservationStore.upsert_many`
(`storage.py` lines 103-147), the `ON CONFLICT(service_date, train_id,
route_label) DO UPDATE SET` clause, as a pure function
`mergeRow stored incoming`.  Key fields stay those of the stored row (the
conflict guarantees they are equal to the incoming ones). -/
def mergeRow (st inc : Observation) : Observation where
  observation_ts := inc.observation_ts
  service_date := st.service_date
  train_id := st.train_id
  train_name := inc.train_name
  line := inc.line
  route_label := st.route_label
  source_station := inc.source_station
  target_station := inc.target_station
  planned_departure := inc.planned_departure
  actual_departure := inc.actual_departure
  planned_arrival := inc.planned_arrival
  actual_arrival :=
    if inc.arrival_observed then inc.actual_arrival else st.actual_arrival
  delay_minutes := inc.delay_minutes
  schedule_deviation_minutes := inc.schedule_deviation_minutes
  arrival_delay_minutes :=
    if inc.arrival_observed then inc.arrival_delay_minutes
    else st.arrival_delay_minutes
  arrival_schedule_deviation_minutes :=
    if inc.arrival_observed then inc.arrival_schedule_deviation_minutes
    else st.arrival_schedule_deviation_minutes
  arrival_observed := st.arrival_observed || inc.arrival_observed
  arrival_info_missing :=
    if st.arrival_observed || inc.arrival_observed then false
    else st.arrival_info_missing || inc.arrival_info_missing
  departure_reason := inc.departure_reason
  arrival_reason :=
    if inc.arrival_observed then inc.arrival_reason
    else if st.arrival_reason ≠ "" then st.arrival_reason
    else inc.arrival_reason
  canceled_departure := inc.canceled_departure
  canceled_arrival :=
    if inc.arrival_observed then inc.canceled_arrival else st.canceled_arrival
  canceled := inc.canceled

/-- `collector.py` line 124: the change event for the matched arrival's
train at the target station, absent when no arrival was matched. -/
def arrChangeFor (matchedArr : Option PlannedStop)
    (targetChanges : String → Option ChangeInfo) : Option ChangeInfo :=
  matchedArr.bind fun m => targetChanges m.train_id

/-- `collector.py` line 126: `dep_change.changed_departure if dep_change
else None`. -/
def actualDepartureOf (depChange : Option ChangeInfo) : Option Int :=
  depChange.bind fun c => c.changed_departure

/-- `collector.py` line 130. -/
def canceledDepartureFlag (depChange : Option ChangeInfo) : Bool :=
  match depChange with | some c => c.canceled | none => false

/-- `collector.py` lines 131-134: stripped reason, defaulted to "Ausfall"
for a silent cancellation. -/
def departureReasonOf (depChange : Option ChangeInfo) : String :=
  let s := (match depChange with | some c => c.departure_reason | none => "").trim
  if canceledDepartureFlag depChange && (s = "") then "Ausfall" else s

/-- `collector.py` line 139: `matched_arr.planned_arrival if matched_arr
else None`. -/
def plannedArrivalOf (matchedArr : Option PlannedStop) : Option Int :=
  matchedArr.bind fun m => m.planned_arrival

/-- `collector.py` lines 140-141: the deadline is planned arrival + 1 hour,
and the capture window holds while `now <= deadline` (false when there is
no planned arrival). -/
def withinCaptureWindow (planned_arrival : Option Int) (now : Int) : Bool :=
  match planned_arrival with
  | some pa => decide (now ≤ pa + 60)
  | none => false

/-- `collector.py` lines 142-148: an explicit arrival event is a change
with a revised arrival time or a cancellation. -/
def arrivalEventAvailable (arrChange : Option ChangeInfo) : Bool :=
  match arrChange with
  | some c => c.changed_arrival.isSome || c.canceled
  | none => false

/-- `collector.py` lines 153-161: arrival is observed on an explicit event,
or inferred on time once `now >= planned_arrival` while still inside the
capture window with an arrival actually matched. -/
def arrivalObservedFlag (matchedArr : Option PlannedStop)
    (arrChange : Option ChangeInfo) (now : Int) : Bool :=
  arrivalEventAvailable arrChange ||
    (withinCaptureWindow (plannedArrivalOf matchedArr) now &&
      (plannedArrivalOf matchedArr).isSome && matchedArr.isSome &&
      (match plannedArrivalOf matchedArr with
       | some pa => decide (now ≥ pa)
       | none => false))

/-- `collector.py` lines 163-164 and 171: revised time if present, else the
planned arrival (inferred on-time); absent when not observed. -/
def actualArrivalOf (planned_arrival : Option Int)
    (arrChange : Option ChangeInfo) (observed : Bool) : Option Int :=
  if observed then
    match arrChange with
    | some c =>
      match c.changed_arrival with
      | some t => some t
      | none => planned_arrival
    | none => planned_arrival
  else none

/-- `collector.py` lines 166 and 173. -/
def canceledArrivalFlag (arrChange : Option ChangeInfo) (observed : Bool) :
    Bool :=
  if observed then
    match arrChange with | some c => c.canceled | none => false
  else false

/-- `collector.py` lines 167-169 and 174. -/
def arrivalReasonOf (arrChange : Option ChangeInfo) (observed : Bool) :
    String :=
  if observed then
    let s := (match arrChange with | some c => c.arrival_reason | none => "").trim
    if canceledArrivalFlag arrChange observed && (s = "") then "Ausfall" else s
  else ""

/-- `collector.py` line 176: `bool(planned_arrival and not arrival_observed
and now_local_naive > arrival_deadline)`. -/
def arrivalInfoMissingFlag (planned_arrival : Option Int) (observed : Bool)
    (now : Int) : Bool :=
  planned_arrival.isSome && !observed &&
    (match planned_arrival with
     | some pa => decide (now > pa + 60)
     | none => false)

/-- The Observation record appended at `collector.py` lines 179-205, for a
departure whose planned departure `pd` is known. -/
def mkBuiltObservation (obsTs svcDate : Int) (dep : PlannedStop)
    (depChange : Option ChangeInfo) (matchedArr : Option PlannedStop)
    (targetChanges : String → Option ChangeInfo) (now : Int) (pd : Int) :
    Observation :=
  let arrChange := arrChangeFor matchedArr targetChanges
  let planned_arrival := plannedArrivalOf matchedArr
  let dep_deviation := minutesDelta (actualDepartureOf depChange) dep.planned_departure
  let observed := arrivalObservedFlag matchedArr arrChange now
  let actual_arrival := actualArrivalOf planned_arrival arrChange observed
  let arr_deviation :=
    if observed then minutesDelta actual_arrival planned_arrival else 0
  let canceled_arr := canceledArrivalFlag arrChange observed
  { observation_ts := obsTs
    service_date := svcDate
    train_id := dep.train_id
    train_name := dep.train_name
    line := dep.line
    route_label := dep.route_label
    source_station := dep.source_station
    target_station := dep.target_station
    planned_departure := pd
    actual_departure := actualDepartureOf depChange
    planned_arrival := planned_arrival
    actual_arrival := actual_arrival
    delay_minutes := max 0 dep_deviation
    schedule_deviation_minutes := dep_deviation
    arrival_delay_minutes := max 0 arr_deviation
    arrival_schedule_deviation_minutes := arr_deviation
    arrival_observed := observed
    arrival_info_missing := arrivalInfoMissingFlag planned_arrival observed now
    departure_reason := departureReasonOf depChange
    arrival_reason := arrivalReasonOf arrChange observed
    canceled_departure := canceledDepartureFlag depChange
    canceled_arrival := canceled_arr
    canceled := canceledDepartureFlag depChange || canceled_arr }

/-- The per-departure Observation construction of `collect_observations`
(`collector.py` lines 121-205): `none` when the departure has no planned
departure (the `continue` at line 137). -/
def buildObservation (obsTs svcDate : Int) (dep : PlannedStop)
    (depChange : Option ChangeInfo) (matchedArr : Option PlannedStop)
    (targetChanges : String → Option ChangeInfo) (now : Int) :
    Option Observation :=
  match dep.planned_departure with
  | none => none
  | some pd =>
    some (mkBuiltObservation obsTs svcDate dep depChange matchedArr
      targetChanges now pd)

/-- `key=lambda x: x.planned_arrival or datetime.max`: absent arrivals sort
last. -/
def optTopLeB (x y : Option Int) : Bool :=
  match x, y with
  | _, none => true
  | none, some _ => false
  | some a, some b => decide (a ≤ b)

/-- Sort arrival candidates by planned arrival, absent times last
(`collector.py` line 43). -/
def sortByArrival (l : List PlannedStop) : List PlannedStop :=
  List.insertionSort
    (fun a b => optTopLeB a.planned_arrival b.planned_arrival = true) l

/-- Python `abs` on the minute difference. -/
def iabs (d : Int) : Int := if d < 0 then -d else d

/-- Accumulator of the candidate loop of `_match_arrival_for_departure`
(`collector.py` lines 50-65): the best in-window candidate so far and the
nearest-by-absolute-distance fallback. -/
structure MatchAcc where
  preferred : Option PlannedStop
  preferredMin : Int
  fallback : PlannedStop
  fallbackAbs : Int
deriving Repr

/-- One iteration of the candidate loop (`collector.py` lines 55-65):
candidates without a planned arrival are skipped; the fallback updates on a
strictly smaller absolute difference; the preferred updates on a strictly
smaller difference inside the `[0, 300]` window. -/
def stepCand (pd : Int) (acc : MatchAcc) (c : PlannedStop) : MatchAcc :=
  match c.planned_arrival with
  | none => acc
  | some pa =>
    let diff := pa - pd
    let absDiff := iabs diff
    let acc1 :=
      if absDiff < acc.fallbackAbs then
        { acc with fallback := c, fallbackAbs := absDiff }
      else acc
    if 0 ≤ diff ∧ diff ≤ 300 ∧ diff < acc1.preferredMin then
      { acc1 with preferred := some c, preferredMin := diff }
    else acc1

/-- The initial accumulator of the candidate loop (`collector.py` lines
50-53): no preferred candidate, `10**9` sentinels, first sorted candidate
as fallback. -/
def matchInit (fb0 : PlannedStop) : MatchAcc where
  preferred := none
  preferredMin := 1000000000
  fallback := fb0
  fallbackAbs := 1000000000

/-- The same-name phase of `_match_arrival_for_departure` (`collector.py`
lines 39-69) applied to the already filtered list of unused same-name
candidates: sort by planned arrival, then pick the preferred in-window
candidate or the nearest fallback (`preferred or fallback`); with no planned
departure, pick the earliest-arriving candidate. -/
def matchSameName (pd : Option Int) (sameName : List PlannedStop) :
    Option PlannedStop :=
  match sameName with
  | [] => none
  | h :: t =>
    let sorted := sortByArrival (h :: t)
    let fb0 := sorted.headD h
    match pd with
    | none => some fb0
    | some pdv =>
      let final := sorted.foldl (stepCand pdv) (matchInit fb0)
      some (final.preferred.getD final.fallback)

/-- The deduplication key of the collector's final loop
(`collector.py` lines 207-209). -/
def dedupKey (o : Observation) : String × String := (o.route_label, o.train_id)

/-- One `dedup[(row.route_label, row.train_id)] = row` step: a Python dict
keeps the key's original position and replaces its value; a new key is
appended. -/
def upsertKeyed (acc : List Observation) (o : Observation) : List Observation :=
  if acc.any fun x => dedupKey x = dedupKey o then
    acc.map fun x => if dedupKey x = dedupKey o then o else x
  else acc ++ [o]

/-- The sort key of the collector's final `sorted(...)` call
(`collector.py` line 211), compared lexicographically as in Python. -/
def sortKey (o : Observation) : String ×ₗ (Int ×ₗ String) :=
  toLex (o.route_label, toLex (o.planned_departure, o.train_name))

/-- Order on Observations induced by `sortKey`. -/
def obsLe (a b : Observation) : Prop := sortKey a ≤ sortKey b

instance : DecidableRel obsLe := fun a b =>
  inferInstanceAs (Decidable (sortKey a ≤ sortKey b))

instance : IsTotal Observation obsLe := ⟨fun a b => le_total (sortKey a) (sortKey b)⟩

instance : IsTrans Observation obsLe := ⟨fun _ _ _ h h2 => le_trans h h2⟩

/-- The Deduplicator (`collector.py` lines 207-211): collapse by
`(route_label, train_id)` with later rows overwriting earlier ones, then
sort by `(route_label, planned_departure, train_name)` (Python's `sorted`
is a stable sort, as is insertion sort). -/
def dedupAndSortObservations (rows : List Observation) : List Observation :=
  List.insertionSort obsLe (rows.foldl upsertKeyed [])

/-- The display-time reclassification of `dashboard.load_data`
(`dashboard.py` lines 95-100): stored flag, or past-deadline inference, or
past-service-date inference. -/
def effectiveArrivalMissing (r : Observation) (nowLocal todayLocal : Int) :
    Bool :=
  let deadlineLt : Bool :=
    match r.planned_arrival with
    | some pa => decide (pa + 60 < nowLocal)
    | none => false
  let inferredMissing := !r.arrival_observed && r.planned_arrival.isSome && deadlineLt
  let inferredMissingPast := !r.arrival_observed && decide (r.service_date < todayLocal)
  r.arrival_info_missing || inferredMissing || inferredMissingPast

/-- `dashboard.py` line 101. -/
def effectiveArrivalOpen (r : Observation) (nowLocal todayLocal : Int) : Bool :=
  !r.arrival_observed && !(effectiveArrivalMissing r nowLocal todayLocal)

/-- Spec-side definition for the refinement claim C5: the core
state-machine rule for "arrival missing" applied to a stored row at an
instant — arrival not observed and the instant past planned arrival plus
one hour (the formula of `collector.py` line 176, reapplied at read time). -/
def coreArrivalMissing (planned_arrival : Option Int) (observed : Bool)
    (now : Int) : Bool :=
  match planned_arrival with
  | some pa => !observed && decide (pa + 60 < now)
  | none => false

/-- Shape of the cancellation fields of every builder-produced row: the
overall flag is the disjunction of the leg flags, and a canceled arrival is
always an observed arrival. -/
def legCancelShape (r : Observation) : Prop :=
  r.canceled = (r.canceled_departure || r.canceled_arrival) ∧
    (r.canceled_arrival = true → r.arrival_observed = true)

instance (r : Observation) : Decidable (legCancelShape r) :=
  inferInstanceAs (Decidable (And _ _))

/-! ### Shared lemmas and concrete fixtures -/

theorem buildObservation_eq_some {obsTs svcDate dep depChange matchedArr
    targetChanges now o} :
    buildObservation obsTs svcDate dep depChange matchedArr targetChanges
      now = some o ↔
    ∃ pd, dep.planned_departure = some pd ∧
      o = mkBuiltObservation obsTs svcDate dep depChange matchedArr
        targetChanges now pd := by
  cases h : dep.planned_departure with
  | none => simp [buildObservation, h]
  | some pd => simp [buildObservation, h, eq_comm]

/-- Departure stop fixture: RE1 leaving at minute 900. -/
def exDep : PlannedStop where
  train_id := "dep1"
  train_name := "RE1"
  line := "RE1"
  source_station := "A"
  target_station := "B"
  planned_departure := some 900
  planned_arrival := none
  route_label := "r1"

/-- Matched arrival fixture: RE1 arriving at minute 1000. -/
def exArr : PlannedStop where
  train_id := "arr1"
  train_name := "RE1"
  line := "RE1"
  source_station := "A"
  target_station := "B"
  planned_departure := none
  planned_arrival := some 1000
  route_label := "r1"

/-- A cancellation change event for the arrival train. -/
def exCancelChange : ChangeInfo where
  train_id := "arr1"
  changed_departure := none
  changed_arrival := none
  departure_reason := ""
  arrival_reason := ""
  canceled := true

/-- Target-station change lookup reporting the arrival canceled. -/
def exLookupCancel : String → Option ChangeInfo := fun s =>
  if s = "arr1" then some exCancelChange else none

/-- Target-station change lookup with no events. -/
def exLookupNone : String → Option ChangeInfo := fun _ => none

/-- Stored-row fixture with a confirmed (observed) arrival. -/
def exRow : Observation where
  observation_ts := 0
  service_date := 0
  train_id := "dep1"
  train_name := "RE1"
  line := "RE1"
  route_label := "r1"
  source_station := "A"
  target_station := "B"
  planned_departure := 900
  actual_departure := none
  planned_arrival := some 1000
  actual_arrival := some 1005
  delay_minutes := 0
  schedule_deviation_minutes := 0
  arrival_delay_minutes := 5
  arrival_schedule_deviation_minutes := 5
  arrival_observed := true
  arrival_info_missing := false
  departure_reason := ""
  arrival_reason := ""
  canceled_departure := false
  canceled_arrival := false
  canceled := false

/-- Incoming-row fixture from a later silent fetch: nothing observed. -/
def exIncSilent : Observation :=
  { exRow with
      observation_ts := 1
      actual_arrival := none
      arrival_delay_minutes := 0
      arrival_schedule_deviation_minutes := 0
      arrival_observed := false
      arrival_info_missing := true }

/-- Stored-row fixture with a captured arrival reason. -/
def exRowReason : Observation := { exRow with arrival_reason := "defekt" }

/-! ### Claims -/

/-- C1: once a stored row has `arrival_observed = true`, it remains true
after every subsequent sequence of merges, including merges whose incoming
row has `arrival_observed = false`. -/
theorem arrivalObserved_monotonic_across_merges (st : Observation)
    (incs : List Observation) (h : st.arrival_observed = true) :
    (incs.foldl mergeRow st).arrival_observed = true := by
  induction incs generalizing st with
  | nil => exact h
  | cons i is ih => exact ih (mergeRow st i) (by simp [mergeRow, h])

/-- Witness for C1 at a concrete stored row and a subsequent non-observed
incoming row. -/
theorem arrivalObserved_monotonic_across_merges_witness :
    (List.foldl mergeRow exRow [exIncSilent]).arrival_observed = true :=
  arrivalObserved_monotonic_across_merges exRow [exIncSilent] rfl

/-- C3: on a conflicting merge, arrival-sensitive fields keep the stored
values when the incoming row is not observed (the reason only when the
stored one is non-empty), and take the incoming values when it is. -/
theorem merge_arrival_frame_rules (st inc : Observation) :
    (inc.arrival_observed = false →
      (mergeRow st inc).actual_arrival = st.actual_arrival ∧
      (mergeRow st inc).arrival_delay_minutes = st.arrival_delay_minutes ∧
      (mergeRow st inc).arrival_schedule_deviation_minutes =
        st.arrival_schedule_deviation_minutes ∧
      (mergeRow st inc).canceled_arrival = st.canceled_arrival ∧
      (st.arrival_reason ≠ "" →
        (mergeRow st inc).arrival_reason = st.arrival_reason) ∧
      (st.arrival_reason = "" →
        (mergeRow st inc).arrival_reason = inc.arrival_reason)) ∧
    (inc.arrival_observed = true →
      (mergeRow st inc).actual_arrival = inc.actual_arrival ∧
      (mergeRow st inc).arrival_delay_minutes = inc.arrival_delay_minutes ∧
      (mergeRow st inc).arrival_schedule_deviation_minutes =
        inc.arrival_schedule_deviation_minutes ∧
      (mergeRow st inc).canceled_arrival = inc.canceled_arrival ∧
      (mergeRow st inc).arrival_reason = inc.arrival_reason) := by
  constructor
  · intro h
    refine ⟨by simp [mergeRow, h], by simp [mergeRow, h], by simp [mergeRow, h],
      by simp [mergeRow, h], fun hne => by simp [mergeRow, h, hne],
      fun he => by simp [mergeRow, h, he]⟩
  · intro h
    exact ⟨by simp [mergeRow, h], by simp [mergeRow, h], by simp [mergeRow, h],
      by simp [mergeRow, h], by simp [mergeRow, h]⟩

/-- Witness for C3: a silent incoming row keeps the stored actual arrival
and the stored non-empty reason. -/
theorem merge_arrival_frame_rules_witness :
    (mergeRow exRowReason exIncSilent).actual_arrival = some 1005 ∧
    (mergeRow exRowReason exIncSilent).arrival_reason = "defekt" := by
  have h := (merge_arrival_frame_rules exRowReason exIncSilent).1 rfl
  exact ⟨h.1.trans rfl, (h.2.2.2.2.1 (by decide)).trans rfl⟩

/-- C6: `arrival_info_missing` and `arrival_observed` are never both true:
the builder never sets both, and a merge forces the missing flag to false
whenever either side is observed (which is exactly when the merged row is
observed). -/
theorem arrivalInfoMissing_excludes_observed :
    (∀ obsTs svcDate dep dc m tc now o,
        buildObservation obsTs svcDate dep dc m tc now = some o →
        o.arrival_observed = true → o.arrival_info_missing = false) ∧
    (∀ st inc : Observation,
        (st.arrival_observed || inc.arrival_observed) = true →
        (mergeRow st inc).arrival_observed = true ∧
        (mergeRow st inc).arrival_info_missing = false) := by
  constructor
  · intro obsTs svcDate dep dc m tc now o hb hobs
    obtain ⟨pd, hpd, rfl⟩ := buildObservation_eq_some.mp hb
    simp only [mkBuiltObservation] at hobs ⊢
    rw [hobs]
    simp [arrivalInfoMissingFlag]
  · intro st inc h
    exact ⟨by simpa [mergeRow] using h, by simp [mergeRow, h]⟩

/-- Witness for C6 at a concrete canceled (hence observed) arrival and a
concrete merge with an observed stored row. -/
theorem arrivalInfoMissing_excludes_observed_witness :
    (mkBuiltObservation 0 0 exDep none (some exArr) exLookupCancel 950
      900).arrival_info_missing = false ∧
    (mergeRow exRow exIncSilent).arrival_info_missing = false :=
  ⟨arrivalInfoMissing_excludes_observed.1 0 0 exDep none (some exArr)
      exLookupCancel 950 _ rfl rfl,
   (arrivalInfoMissing_excludes_observed.2 exRow exIncSilent rfl).2⟩

/-- A departure change reporting the train left three minutes early. -/
def exEarlyDepChange : ChangeInfo where
  train_id := "dep1"
  changed_departure := some 897
  changed_arrival := none
  departure_reason := ""
  arrival_reason := ""
  canceled := false

/-- C9: every built Observation clamps `delay_minutes` and
`arrival_delay_minutes` to `max 0` of the signed deviations, and an actual
departure 3 minutes early yields delay 0 with deviation -3. -/
theorem delay_clamping :
    (∀ obsTs svcDate dep dc m tc now o,
        buildObservation obsTs svcDate dep dc m tc now = some o →
        o.delay_minutes = max 0 o.schedule_deviation_minutes ∧
        o.arrival_delay_minutes =
          max 0 o.arrival_schedule_deviation_minutes) ∧
    ((buildObservation 0 0 exDep (some exEarlyDepChange) none exLookupNone
        900).map fun o => (o.delay_minutes, o.schedule_deviation_minutes)) =
      some (0, -3) := by
  constructor
  · intro obsTs svcDate dep dc m tc now o hb
    obtain ⟨pd, hpd, rfl⟩ := buildObservation_eq_some.mp hb
    exact ⟨rfl, rfl⟩
  · rfl

/-- Witness for C9's quantified clamping part at a concrete build. -/
theorem delay_clamping_witness :
    (mkBuiltObservation 0 0 exDep (some exEarlyDepChange) none exLookupNone
        900 900).delay_minutes =
      max 0 (mkBuiltObservation 0 0 exDep (some exEarlyDepChange) none
        exLookupNone 900 900).schedule_deviation_minutes :=
  (delay_clamping.1 0 0 exDep (some exEarlyDepChange) none exLookupNone 900
    _ rfl).1

/-- C10: a departure with no matched arrival builds, at every instant, an
Observation with no planned arrival that is neither Observed nor Missing —
the arrival leg stays Open forever. -/
theorem unmatched_arrival_stays_open (obsTs svcDate : Int)
    (dep : PlannedStop) (dc : Option ChangeInfo)
    (tc : String → Option ChangeInfo) (now : Int) (o : Observation)
    (hb : buildObservation obsTs svcDate dep dc none tc now = some o) :
    o.planned_arrival = none ∧ o.arrival_observed = false ∧
    o.arrival_info_missing = false := by
  obtain ⟨pd, hpd, rfl⟩ := buildObservation_eq_some.mp hb
  refine ⟨rfl, ?_, ?_⟩ <;>
    simp [mkBuiltObservation, arrivalObservedFlag, plannedArrivalOf,
      arrChangeFor, arrivalEventAvailable, withinCaptureWindow,
      arrivalInfoMissingFlag]

/-- Witness for C10 at a concrete unmatched departure long after any
plausible deadline. -/
theorem unmatched_arrival_stays_open_witness :
    (mkBuiltObservation 0 0 exDep none none exLookupNone 5000
        900).arrival_observed = false ∧
    (mkBuiltObservation 0 0 exDep none none exLookupNone 5000
        900).arrival_info_missing = false := by
  have h := unmatched_arrival_stays_open 0 0 exDep none exLookupNone 5000 _ rfl
  exact ⟨h.2.1, h.2.2⟩

/-- Counterexample to C2 as stated: at `now = T + 59` (planned arrival
`T = 1000`, no change event) the built Observation has
`arrival_observed = true` — the silent on-time arrival is inferred as
Observed, not left Open. -/
theorem silent_ontime_T59_counterexample :
    ¬ (((buildObservation 0 0 exDep none (some exArr) exLookupNone
        1059).map fun o => (o.arrival_observed, o.arrival_info_missing)) =
      some (false, false)) := by decide

/-- C2 amended: with a matched arrival planned at `T` and no change event,
building at `T - 1` gives Open, at `T + 59` gives Observed (the silent
on-time inference inside the capture window), and at `T + 61` gives
Missing. -/
theorem arrival_window_states (obsTs svcDate : Int) (dep a : PlannedStop)
    (dc : Option ChangeInfo) (tc : String → Option ChangeInfo) (T pd : Int)
    (hpd : dep.planned_departure = some pd)
    (hpa : a.planned_arrival = some T)
    (hch : tc a.train_id = none) :
    ((buildObservation obsTs svcDate dep dc (some a) tc (T - 1)).map
        fun o => (o.arrival_observed, o.arrival_info_missing)) =
      some (false, false) ∧
    ((buildObservation obsTs svcDate dep dc (some a) tc (T + 59)).map
        fun o => (o.arrival_observed, o.arrival_info_missing)) =
      some (true, false) ∧
    ((buildObservation obsTs svcDate dep dc (some a) tc (T + 61)).map
        fun o => (o.arrival_observed, o.arrival_info_missing)) =
      some (false, true) := by
  have h1 : T - 1 ≤ T + 60 := by omega
  have h2 : ¬ (T - 1 ≥ T) := by omega
  have h3 : ¬ (T - 1 > T + 60) := by omega
  have h4 : T + 59 ≤ T + 60 := by omega
  have h5 : T + 59 ≥ T := by omega
  have h6 : ¬ (T + 61 ≤ T + 60) := by omega
  have h7 : T + 61 > T + 60 := by omega
  refine ⟨?_, ?_, ?_⟩ <;>
    simp [buildObservation, hpd, mkBuiltObservation, arrivalObservedFlag,
      plannedArrivalOf, arrChangeFor, hch, arrivalEventAvailable,
      withinCaptureWindow, arrivalInfoMissingFlag, hpa, h1, h2, h3, h4, h5,
      h6, h7]

/-- Witness for the amended C2 at `T = 1000` with concrete stops. -/
theorem arrival_window_states_witness :
    ((buildObservation 0 0 exDep none (some exArr) exLookupNone
        (1000 - 1)).map fun o => (o.arrival_observed, o.arrival_info_missing)) =
      some (false, false) ∧
    ((buildObservation 0 0 exDep none (some exArr) exLookupNone
        (1000 + 59)).map fun o => (o.arrival_observed, o.arrival_info_missing)) =
      some (true, false) ∧
    ((buildObservation 0 0 exDep none (some exArr) exLookupNone
        (1000 + 61)).map fun o => (o.arrival_observed, o.arrival_info_missing)) =
      some (false, true) :=
  arrival_window_states 0 0 exDep exArr none exLookupNone 1000 900 rfl rfl rfl

/-- Counterexample to C4 as stated: insert a row built while the arrival
cancellation event was visible (canceled arrival, hence `canceled = true`),
then merge a row built from a later silent fetch past the capture window.
The merge keeps `canceled_arrival = true` (frame rule) but overwrites
`canceled` with the incoming `false`, so `canceled` is no longer the
disjunction of the leg flags on the stored row. -/
theorem canceled_disjunction_counterexample :
    (((buildObservation 0 0 exDep none (some exArr) exLookupCancel
          950).bind fun st =>
        (buildObservation 1 0 exDep none (some exArr) exLookupNone
          1200).map fun inc => mergeRow st inc).map fun m =>
      decide (m.canceled = (m.canceled_departure || m.canceled_arrival))) =
      some false := by decide

/-- C4 amended: for rows reachable by an insert followed by merges of
builder-shaped rows, only the forward implication survives: a stored
`canceled = true` still implies a canceled leg, while the converse can fail
once a non-observed merge preserves a stored `canceled_arrival = true`. -/
theorem canceled_implies_leg_canceled (r0 : Observation)
    (incs : List Observation)
    (h0 : r0.canceled = true →
      (r0.canceled_departure || r0.canceled_arrival) = true)
    (hincs : ∀ i ∈ incs, legCancelShape i) :
    (incs.foldl mergeRow r0).canceled = true →
      ((incs.foldl mergeRow r0).canceled_departure ||
        (incs.foldl mergeRow r0).canceled_arrival) = true := by
  induction incs generalizing r0 with
  | nil => exact h0
  | cons i is ih =>
    refine ih (mergeRow r0 i) ?_ fun j hj => hincs j (List.mem_cons_of_mem i hj)
    obtain ⟨hc, himp⟩ := hincs i (List.mem_cons_self i is)
    intro hm
    by_cases hobs : i.arrival_observed = true
    · simp only [mergeRow, hobs] at hm ⊢
      rw [hc] at hm
      simpa using hm
    · have hobs' : i.arrival_observed = false := by
        cases h : i.arrival_observed
        · rfl
        · exact absurd h hobs
      have harr : i.canceled_arrival = false := by
        cases h : i.canceled_arrival
        · rfl
        · exact absurd (himp h) hobs
      simp only [mergeRow, hobs'] at hm ⊢
      rw [hc, harr] at hm
      simp only [Bool.or_false] at hm
      simp [hm, hobs']

/-- Witness for the amended C4: a canceled-departure row merged over
itself still satisfies the implication. -/
theorem canceled_implies_leg_canceled_witness :
    ((List.foldl mergeRow
        { exRow with
            arrival_observed := false
            actual_arrival := none
            canceled_departure := true
            canceled := true }
        [{ exRow with
            arrival_observed := false
            actual_arrival := none
            canceled_departure := true
            canceled := true }]).canceled_departure ||
      (List.foldl mergeRow
        { exRow with
            arrival_observed := false
            actual_arrival := none
            canceled_departure := true
            canceled := true }
        [{ exRow with
            arrival_observed := false
            actual_arrival := none
            canceled_departure := true
            canceled := true }]).canceled_arrival) = true := by
  apply canceled_implies_leg_canceled
  · decide
  · intro i hi
    simp only [List.mem_singleton] at hi
    subst hi
    decide
  · decide

/-- The builder's missing flag is exactly the core rule. -/
theorem arrivalInfoMissingFlag_eq_core (p : Option Int) (obs : Bool)
    (now : Int) :
    arrivalInfoMissingFlag p obs now = coreArrivalMissing p obs now := by
  cases p <;> simp [arrivalInfoMissingFlag, coreArrivalMissing]

/-- The dashboard's effective-missing flag as a disjunction of the core
rule, the stored flag, and the past-service-date inference. -/
theorem effectiveArrivalMissing_eq (r : Observation) (now today : Int) :
    effectiveArrivalMissing r now today =
      (r.arrival_info_missing ||
        coreArrivalMissing r.planned_arrival r.arrival_observed now ||
        (!r.arrival_observed && decide (r.service_date < today))) := by
  unfold effectiveArrivalMissing coreArrivalMissing
  cases r.planned_arrival <;> cases r.arrival_observed <;>
    cases r.arrival_info_missing <;> simp

/-- A stored row for a past day with no planned arrival, still open. -/
def exRowOpenNoArr : Observation :=
  { exRow with
      arrival_observed := false
      planned_arrival := none
      actual_arrival := none
      arrival_delay_minutes := 0
      arrival_schedule_deviation_minutes := 0 }

/-- Counterexample to C5 as stated: for a past-day row with no planned
arrival, the dashboard labels the arrival Missing (and not Open) while the
core state-machine rule at the same instant says not Missing (and Open) —
the display classification is not the core rule and not independent of the
stored data beyond it. -/
theorem display_reclass_counterexample :
    effectiveArrivalMissing exRowOpenNoArr 0 1 = true ∧
    coreArrivalMissing exRowOpenNoArr.planned_arrival
      exRowOpenNoArr.arrival_observed 0 = false ∧
    effectiveArrivalOpen exRowOpenNoArr 0 1 = false := by decide

/-- C5 amended: the dashboard classification agrees with the core rule
exactly when the stored missing flag and the past-service-date inference
are already subsumed by the core rule at the query instant; and the
collection path's stored flag is itself the core rule evaluated at
collection time. -/
theorem display_reclass_matches_core (r : Observation) (now today : Int)
    (hmiss : r.arrival_info_missing = true →
      coreArrivalMissing r.planned_arrival r.arrival_observed now = true)
    (hpast : r.service_date < today → r.arrival_observed = false →
      coreArrivalMissing r.planned_arrival r.arrival_observed now = true) :
    (effectiveArrivalMissing r now today =
        coreArrivalMissing r.planned_arrival r.arrival_observed now ∧
      effectiveArrivalOpen r now today =
        (!r.arrival_observed &&
          !(coreArrivalMissing r.planned_arrival r.arrival_observed now))) ∧
    ∀ obsTs svcDate dep dc m tc nowB o,
      buildObservation obsTs svcDate dep dc m tc nowB = some o →
      o.arrival_info_missing =
        coreArrivalMissing o.planned_arrival o.arrival_observed nowB := by
  constructor
  · have heq := effectiveArrivalMissing_eq r now today
    have hm : effectiveArrivalMissing r now today =
        coreArrivalMissing r.planned_arrival r.arrival_observed now := by
      rw [heq]
      cases hc : coreArrivalMissing r.planned_arrival r.arrival_observed now
      · have h1 : r.arrival_info_missing = false := by
          cases h : r.arrival_info_missing
          · rfl
          · rw [hmiss h] at hc; exact absurd hc (by simp)
        cases hobs : r.arrival_observed
        · have h2 : ¬ (r.service_date < today) := fun hlt => by
            rw [hpast hlt hobs] at hc; exact absurd hc (by simp)
          simp [h1, h2]
        · simp [h1, hobs]
      · simp
    exact ⟨hm, by rw [effectiveArrivalOpen, hm]⟩
  · intro obsTs svcDate dep dc m tc nowB o hb
    obtain ⟨pd, hpd, rfl⟩ := buildObservation_eq_some.mp hb
    exact arrivalInfoMissingFlag_eq_core _ _ _

/-- Witness for the amended C5 at a concrete observed row. -/
theorem display_reclass_matches_core_witness :
    effectiveArrivalMissing exRow 0 1 =
      coreArrivalMissing exRow.planned_arrival exRow.arrival_observed 0 :=
  ((display_reclass_matches_core exRow 0 1 (by decide)
    (by decide)).1).1

/-! ### Matcher loop lemmas -/

theorem stepCand_fallbackAbs_le (pd : Int) (acc : MatchAcc)
    (c : PlannedStop) : (stepCand pd acc c).fallbackAbs ≤ acc.fallbackAbs := by
  cases hc : c.planned_arrival with
  | none => simp [stepCand, hc]
  | some pa =>
    simp only [stepCand, hc]
    split_ifs <;> simp <;> omega

theorem stepCand_fallbackAbs_le_diff (pd : Int) (acc : MatchAcc)
    (c : PlannedStop) (pa : Int) (h : c.planned_arrival = some pa) :
    (stepCand pd acc c).fallbackAbs ≤ iabs (pa - pd) := by
  simp only [stepCand, h]
  split_ifs with h1 h2 h3
  · exact le_refl _
  · exact le_refl _
  · show acc.fallbackAbs ≤ iabs (pa - pd)
    omega
  · show acc.fallbackAbs ≤ iabs (pa - pd)
    omega

theorem stepCand_fallback_cases (pd : Int) (acc : MatchAcc)
    (c : PlannedStop) :
    ((stepCand pd acc c).fallback = acc.fallback ∧
      (stepCand pd acc c).fallbackAbs = acc.fallbackAbs) ∨
    ∃ pa, c.planned_arrival = some pa ∧ (stepCand pd acc c).fallback = c ∧
      (stepCand pd acc c).fallbackAbs = iabs (pa - pd) := by
  cases hc : c.planned_arrival with
  | none => left; simp [stepCand, hc]
  | some pa =>
    simp only [stepCand, hc]
    split_ifs with h1 h2 h3
    · right; exact ⟨pa, rfl, rfl, rfl⟩
    · right; exact ⟨pa, rfl, rfl, rfl⟩
    · left; exact ⟨rfl, rfl⟩
    · left; exact ⟨rfl, rfl⟩

theorem stepCand_preferredMin_le (pd : Int) (acc : MatchAcc)
    (c : PlannedStop) :
    (stepCand pd acc c).preferredMin ≤ acc.preferredMin := by
  cases hc : c.planned_arrival with
  | none => simp [stepCand, hc]
  | some pa =>
    simp only [stepCand, hc]
    split_ifs <;> simp_all <;> omega

theorem stepCand_preferredMin_le_diff (pd : Int) (acc : MatchAcc)
    (c : PlannedStop) (pa : Int) (h : c.planned_arrival = some pa)
    (h0 : 0 ≤ pa - pd) (h3 : pa - pd ≤ 300) :
    (stepCand pd acc c).preferredMin ≤ pa - pd := by
  simp only [stepCand, h]
  split_ifs <;> simp_all

theorem stepCand_preferred_cases (pd : Int) (acc : MatchAcc)
    (c : PlannedStop) :
    ((stepCand pd acc c).preferred = acc.preferred ∧
      (stepCand pd acc c).preferredMin = acc.preferredMin) ∨
    ∃ pa, c.planned_arrival = some pa ∧
      (stepCand pd acc c).preferred = some c ∧
      (stepCand pd acc c).preferredMin = pa - pd ∧ 0 ≤ pa - pd ∧
      pa - pd ≤ 300 := by
  cases hc : c.planned_arrival with
  | none => left; simp [stepCand, hc]
  | some pa =>
    simp only [stepCand, hc]
    split_ifs with h1 h2 h3
    · right; exact ⟨pa, rfl, rfl, rfl, h2.1, h2.2.1⟩
    · left; exact ⟨rfl, rfl⟩
    · right; exact ⟨pa, rfl, rfl, rfl, h3.1, h3.2.1⟩
    · left; exact ⟨rfl, rfl⟩

theorem stepCand_preferred_none (pd : Int) (acc : MatchAcc)
    (c : PlannedStop) (h : (stepCand pd acc c).preferred = none) :
    acc.preferred = none ∧
    (stepCand pd acc c).preferredMin = acc.preferredMin ∧
    ∀ pa, c.planned_arrival = some pa →
      ¬ (0 ≤ pa - pd ∧ pa - pd ≤ 300 ∧ pa - pd < acc.preferredMin) := by
  cases hc : c.planned_arrival with
  | none =>
    refine ⟨?_, by simp [stepCand, hc], by simp [hc]⟩
    simpa [stepCand, hc] using h
  | some pa =>
    simp only [stepCand, hc] at h ⊢
    split_ifs at h ⊢ with h1 h2 h3
    all_goals
      refine ⟨h, rfl, fun pb hpb => ?_⟩
      injection hpb with hpb
      subst hpb
      intro hcontra
      first
      | exact h2 ⟨hcontra.1, hcontra.2.1, hcontra.2.2⟩
      | exact h3 ⟨hcontra.1, hcontra.2.1, hcontra.2.2⟩

theorem foldStep_fallbackAbs_le (pd : Int) (cs : List PlannedStop) :
    ∀ acc : MatchAcc,
      (cs.foldl (stepCand pd) acc).fallbackAbs ≤ acc.fallbackAbs ∧
      ∀ c ∈ cs, ∀ pa, c.planned_arrival = some pa →
        (cs.foldl (stepCand pd) acc).fallbackAbs ≤ iabs (pa - pd) := by
  induction cs with
  | nil => exact fun acc => ⟨le_refl _, by simp⟩
  | cons c rest ih =>
    intro acc
    constructor
    · exact le_trans (ih (stepCand pd acc c)).1 (stepCand_fallbackAbs_le pd acc c)
    · intro d hd pa hpa
      rcases List.mem_cons.mp hd with rfl | hd'
      · exact le_trans (ih (stepCand pd acc d)).1
          (stepCand_fallbackAbs_le_diff pd acc d pa hpa)
      · exact (ih (stepCand pd acc c)).2 d hd' pa hpa

theorem foldStep_fallback_mem (pd : Int) (cs : List PlannedStop) :
    ∀ acc : MatchAcc,
      ((cs.foldl (stepCand pd) acc).fallback = acc.fallback ∧
        (cs.foldl (stepCand pd) acc).fallbackAbs = acc.fallbackAbs) ∨
      ∃ c ∈ cs, ∃ pa, c.planned_arrival = some pa ∧
        (cs.foldl (stepCand pd) acc).fallback = c ∧
        (cs.foldl (stepCand pd) acc).fallbackAbs = iabs (pa - pd) := by
  induction cs with
  | nil => exact fun _ => Or.inl ⟨rfl, rfl⟩
  | cons c rest ih =>
    intro acc
    rcases ih (stepCand pd acc c) with ⟨hf, ha⟩ | ⟨d, hd, pa, hpa, hf, ha⟩
    · rcases stepCand_fallback_cases pd acc c with ⟨sf, sa⟩ | ⟨pa, hpa, sf, sa⟩
      · exact Or.inl ⟨hf.trans sf, ha.trans sa⟩
      · exact Or.inr ⟨c, List.mem_cons_self c rest, pa, hpa, hf.trans sf,
          ha.trans sa⟩
    · exact Or.inr ⟨d, List.mem_cons_of_mem c hd, pa, hpa, hf, ha⟩

theorem foldStep_preferredMin_le (pd : Int) (cs : List PlannedStop) :
    ∀ acc : MatchAcc,
      (cs.foldl (stepCand pd) acc).preferredMin ≤ acc.preferredMin ∧
      ∀ c ∈ cs, ∀ pa, c.planned_arrival = some pa → 0 ≤ pa - pd →
        pa - pd ≤ 300 → (cs.foldl (stepCand pd) acc).preferredMin ≤ pa - pd := by
  induction cs with
  | nil => exact fun acc => ⟨le_refl _, by simp⟩
  | cons c rest ih =>
    intro acc
    constructor
    · exact le_trans (ih (stepCand pd acc c)).1 (stepCand_preferredMin_le pd acc c)
    · intro d hd pa hpa h0 h3
      rcases List.mem_cons.mp hd with rfl | hd'
      · exact le_trans (ih (stepCand pd acc d)).1
          (stepCand_preferredMin_le_diff pd acc d pa hpa h0 h3)
      · exact (ih (stepCand pd acc c)).2 d hd' pa hpa h0 h3

theorem foldStep_preferred_mem (pd : Int) (cs : List PlannedStop) :
    ∀ acc : MatchAcc,
      ((cs.foldl (stepCand pd) acc).preferred = acc.preferred ∧
        (cs.foldl (stepCand pd) acc).preferredMin = acc.preferredMin) ∨
      ∃ c ∈ cs, ∃ pa, c.planned_arrival = some pa ∧
        (cs.foldl (stepCand pd) acc).preferred = some c ∧
        (cs.foldl (stepCand pd) acc).preferredMin = pa - pd ∧ 0 ≤ pa - pd ∧
        pa - pd ≤ 300 := by
  induction cs with
  | nil => exact fun _ => Or.inl ⟨rfl, rfl⟩
  | cons c rest ih =>
    intro acc
    rcases ih (stepCand pd acc c) with ⟨hf, ha⟩ | ⟨d, hd, pa, hpa, hf, ha, h0, h3⟩
    · rcases stepCand_preferred_cases pd acc c with ⟨sf, sa⟩ | ⟨pa, hpa, sf, sa, s0, s3⟩
      · exact Or.inl ⟨hf.trans sf, ha.trans sa⟩
      · exact Or.inr ⟨c, List.mem_cons_self c rest, pa, hpa, hf.trans sf,
          ha.trans sa, s0, s3⟩
    · exact Or.inr ⟨d, List.mem_cons_of_mem c hd, pa, hpa, hf, ha, h0, h3⟩

theorem foldStep_preferred_none (pd : Int) (cs : List PlannedStop) :
    ∀ acc : MatchAcc, (cs.foldl (stepCand pd) acc).preferred = none →
      acc.preferred = none ∧
      (cs.foldl (stepCand pd) acc).preferredMin = acc.preferredMin ∧
      ∀ c ∈ cs, ∀ pa, c.planned_arrival = some pa →
        ¬ (0 ≤ pa - pd ∧ pa - pd ≤ 300 ∧ pa - pd < acc.preferredMin) := by
  induction cs with
  | nil => exact fun _ h => ⟨h, rfl, by simp⟩
  | cons c rest ih =>
    intro acc h
    obtain ⟨h1, h2, h3⟩ := ih (stepCand pd acc c) h
    obtain ⟨s1, s2, s3⟩ := stepCand_preferred_none pd acc c h1
    refine ⟨s1, h2.trans s2, ?_⟩
    intro d hd pa hpa
    rcases List.mem_cons.mp hd with rfl | hd'
    · exact s3 pa hpa
    · have hrest := h3 d hd' pa hpa
      rw [s2] at hrest
      exact hrest

/-- Characterization of the candidate loop's choice over an arbitrary
candidate list (the sorted same-name pool): provided all candidates carry a
planned arrival whose absolute distance stays below the `10**9` sentinel,
the chosen stop is the in-window minimum when one exists, else the
absolute-distance minimum. -/
theorem runMatch_spec (pd : Int) (s : List PlannedStop) (fb0 : PlannedStop)
    (F : MatchAcc) (hF : s.foldl (stepCand pd) (matchInit fb0) = F)
    (hne : s ≠ [])
    (hall : ∀ c ∈ s, c.planned_arrival.isSome)
    (hbound : ∀ c ∈ s, ∀ pa, c.planned_arrival = some pa →
      iabs (pa - pd) < 1000000000) :
    ∃ cpa, F.preferred.getD F.fallback ∈ s ∧
      (F.preferred.getD F.fallback).planned_arrival = some cpa ∧
      ((∃ c ∈ s, ∃ pa, c.planned_arrival = some pa ∧ 0 ≤ pa - pd ∧
          pa - pd ≤ 300) →
        0 ≤ cpa - pd ∧ cpa - pd ≤ 300 ∧
        ∀ c ∈ s, ∀ pa, c.planned_arrival = some pa → 0 ≤ pa - pd →
          pa - pd ≤ 300 → cpa - pd ≤ pa - pd) ∧
      ((¬ ∃ c ∈ s, ∃ pa, c.planned_arrival = some pa ∧ 0 ≤ pa - pd ∧
          pa - pd ≤ 300) →
        ∀ c ∈ s, ∀ pa, c.planned_arrival = some pa →
          iabs (cpa - pd) ≤ iabs (pa - pd)) := by
  subst hF
  by_cases hwin : ∃ c ∈ s, ∃ pa, c.planned_arrival = some pa ∧
      0 ≤ pa - pd ∧ pa - pd ≤ 300
  · cases hp : (s.foldl (stepCand pd) (matchInit fb0)).preferred with
    | none =>
      exfalso
      obtain ⟨c0, hc0, pa0, hpa0, h0a, h0b⟩ := hwin
      refine (foldStep_preferred_none pd s (matchInit fb0) hp).2.2 c0 hc0 pa0
        hpa0 ⟨h0a, h0b, ?_⟩
      show pa0 - pd < 1000000000
      omega
    | some p =>
      rcases foldStep_preferred_mem pd s (matchInit fb0) with ⟨e1, _⟩ |
        ⟨c, hc, pa, hpa, e1, e2, h0, h3⟩
      · rw [hp] at e1
        simp [matchInit] at e1
      · have hpc : p = c := by
          have h' := hp.symm.trans e1
          injection h'
        subst hpc
        refine ⟨pa, hc, hpa, fun _ => ⟨h0, h3, ?_⟩, fun hno => absurd hwin hno⟩
        intro d hd pb hpb hb0 hb3
        have := (foldStep_preferredMin_le pd s (matchInit fb0)).2 d hd pb hpb hb0 hb3
        rw [e2] at this
        exact this
  · cases hp : (s.foldl (stepCand pd) (matchInit fb0)).preferred with
    | some p =>
      exfalso
      rcases foldStep_preferred_mem pd s (matchInit fb0) with ⟨e1, _⟩ |
        ⟨c, hc, pa, hpa, _, _, h0, h3⟩
      · rw [hp] at e1
        simp [matchInit] at e1
      · exact hwin ⟨c, hc, pa, hpa, h0, h3⟩
    | none =>
      rcases foldStep_fallback_mem pd s (matchInit fb0) with ⟨_, e2⟩ |
        ⟨c, hc, pa, hpa, e1, e2⟩
      · exfalso
        obtain ⟨c0, hc0⟩ := List.exists_mem_of_ne_nil s hne
        obtain ⟨pa0, hpa0⟩ := Option.isSome_iff_exists.mp (hall c0 hc0)
        have hb := hbound c0 hc0 pa0 hpa0
        have hle := (foldStep_fallbackAbs_le pd s (matchInit fb0)).2 c0 hc0 pa0 hpa0
        rw [e2] at hle
        have hsent : (matchInit fb0).fallbackAbs = 1000000000 := rfl
        omega
      · rw [e1]
        refine ⟨pa, hc, hpa, fun hw => absurd hw hwin, fun _ => ?_⟩
        intro d hd pb hpb
        have := (foldStep_fallbackAbs_le pd s (matchInit fb0)).2 d hd pb hpb
        rw [e2] at this
        exact this

/-- Same-name arrival candidate arriving 15 minutes after the departure. -/
def exCandP15 : PlannedStop where
  train_id := "a15"
  train_name := "RE1"
  line := "RE1"
  source_station := "A"
  target_station := "B"
  planned_departure := none
  planned_arrival := some 15
  route_label := "r1"

/-- Same-name candidate at +400 minutes (outside the 300-minute window). -/
def exCandP400 : PlannedStop := { exCandP15 with
  train_id := "a400"
  planned_arrival := some 400 }

/-- Same-name candidate at -5 minutes (arrives before the departure). -/
def exCandM5 : PlannedStop := { exCandP15 with
  train_id := "am5"
  planned_arrival := some (-5) }

/-- Same-name candidate at +350 minutes (outside the window). -/
def exCandP350 : PlannedStop := { exCandP15 with
  train_id := "a350"
  planned_arrival := some 350 }

/-- Candidate two billion minutes early (a valid Python datetime span). -/
def exCandFar1 : PlannedStop := { exCandP15 with
  train_id := "afar1"
  planned_arrival := some (-2000000000) }

/-- Candidate 1.5 billion minutes late. -/
def exCandFar2 : PlannedStop := { exCandP15 with
  train_id := "afar2"
  planned_arrival := some 1500000000 }

/-- Counterexample to C7 as stated: with no candidate in the `[0, 300]`
window, the loop's `10**9` fallback sentinel is smaller than every absolute
difference, so no candidate ever replaces the initial fallback (the
earliest-arriving one) and the matcher returns it even though the other
candidate is strictly nearer in absolute distance. -/
theorem matcher_fallback_sentinel_counterexample :
    matchSameName (some 0) [exCandFar1, exCandFar2] = some exCandFar1 ∧
    exCandFar1.planned_arrival = some (-2000000000) ∧
    exCandFar2.planned_arrival = some 1500000000 ∧
    iabs (1500000000 - 0) < iabs (-2000000000 - 0) := by decide

/-- C7 amended: restricted to unused same-name candidates that all carry a
planned arrival within the `10**9`-minute sentinel, the matcher picks the
candidate with the smallest difference inside the `[0, 300]` window when
one exists, else the candidate with the smallest absolute difference; in
particular `+15` beats `+400`, and `-5` beats `+350`. -/
theorem matchSameName_window_preference (pd : Int) (l : List PlannedStop)
    (hne : l ≠ [])
    (hall : ∀ c ∈ l, c.planned_arrival.isSome)
    (hbound : ∀ c ∈ l, ∀ pa, c.planned_arrival = some pa →
      iabs (pa - pd) < 1000000000) :
    (∃ ch cpa, matchSameName (some pd) l = some ch ∧ ch ∈ l ∧
      ch.planned_arrival = some cpa ∧
      ((∃ c ∈ l, ∃ pa, c.planned_arrival = some pa ∧ 0 ≤ pa - pd ∧
          pa - pd ≤ 300) →
        0 ≤ cpa - pd ∧ cpa - pd ≤ 300 ∧
        ∀ c ∈ l, ∀ pa, c.planned_arrival = some pa → 0 ≤ pa - pd →
          pa - pd ≤ 300 → cpa - pd ≤ pa - pd) ∧
      ((¬ ∃ c ∈ l, ∃ pa, c.planned_arrival = some pa ∧ 0 ≤ pa - pd ∧
          pa - pd ≤ 300) →
        ∀ c ∈ l, ∀ pa, c.planned_arrival = some pa →
          iabs (cpa - pd) ≤ iabs (pa - pd))) ∧
    matchSameName (some 0) [exCandP15, exCandP400] = some exCandP15 ∧
    matchSameName (some 0) [exCandM5, exCandP350] = some exCandM5 := by
  refine ⟨?_, by decide, by decide⟩
  cases l with
  | nil => exact absurd rfl hne
  | cons h t =>
    have hmem : ∀ c : PlannedStop, c ∈ sortByArrival (h :: t) ↔ c ∈ h :: t := by
      intro c
      simp [sortByArrival]
    have hsne : sortByArrival (h :: t) ≠ [] := by
      intro h0
      simp only [sortByArrival] at h0
      have hl := (List.perm_insertionSort
        (fun a b : PlannedStop =>
          optTopLeB a.planned_arrival b.planned_arrival = true)
        (h :: t)).length_eq
      rw [h0] at hl
      simp at hl
    obtain ⟨cpa, hmem', hpa', hwin', hno'⟩ := runMatch_spec pd
      (sortByArrival (h :: t)) ((sortByArrival (h :: t)).headD h) _ rfl hsne
      (fun c hc => hall c ((hmem c).mp hc))
      (fun c hc pa hpa => hbound c ((hmem c).mp hc) pa hpa)
    refine ⟨_, cpa, rfl, (hmem _).mp hmem', hpa', ?_, ?_⟩
    · intro hw
      obtain ⟨c, hc, pa, hpa, h0, h3⟩ := hw
      obtain ⟨a1, a2, a3⟩ := hwin' ⟨c, (hmem c).mpr hc, pa, hpa, h0, h3⟩
      exact ⟨a1, a2, fun d hd pb hpb hb0 hb3 =>
        a3 d ((hmem d).mpr hd) pb hpb hb0 hb3⟩
    · intro hnw
      have hnw' : ¬ ∃ c ∈ sortByArrival (h :: t), ∃ pa,
          c.planned_arrival = some pa ∧ 0 ≤ pa - pd ∧ pa - pd ≤ 300 := by
        rintro ⟨c, hc, pa, hpa, h0, h3⟩
        exact hnw ⟨c, (hmem c).mp hc, pa, hpa, h0, h3⟩
      exact fun d hd pb hpb => hno' hnw' d ((hmem d).mpr hd) pb hpb

/-- Witness for the amended C7 at the claim's two concrete candidate
pools. -/
theorem matchSameName_window_preference_witness :
    matchSameName (some 0) [exCandP15, exCandP400] = some exCandP15 ∧
    matchSameName (some 0) [exCandM5, exCandP350] = some exCandM5 := by
  have h := matchSameName_window_preference 0 [exCandP15, exCandP400]
    (by decide) (by decide) (by decide)
  exact ⟨h.2.1, h.2.2⟩

/-! ### Deduplicator lemmas -/

theorem upsertKeyed_pairwise (acc : List Observation) (o : Observation)
    (h : acc.Pairwise fun a b => dedupKey a ≠ dedupKey b) :
    (upsertKeyed acc o).Pairwise fun a b => dedupKey a ≠ dedupKey b := by
  unfold upsertKeyed
  split_ifs with hany
  · have hk : ∀ x : Observation,
        dedupKey (if dedupKey x = dedupKey o then o else x) = dedupKey x := by
      intro x
      split_ifs with hx
      · exact hx.symm
      · rfl
    rw [List.pairwise_map]
    exact h.imp fun hab => by rw [hk, hk]; exact hab
  · rw [List.pairwise_append]
    refine ⟨h, List.pairwise_singleton _ _, ?_⟩
    intro a ha b hb
    rw [List.mem_singleton] at hb
    subst hb
    intro hkeq
    apply hany
    simp only [List.any_eq_true]
    exact ⟨a, ha, by simpa using hkeq⟩

theorem dedupFold_pairwise (rows : List Observation) :
    ∀ acc, acc.Pairwise (fun a b => dedupKey a ≠ dedupKey b) →
      (rows.foldl upsertKeyed acc).Pairwise
        fun a b => dedupKey a ≠ dedupKey b := by
  induction rows with
  | nil => exact fun _ h => h
  | cons r rest ih => exact fun acc h => ih _ (upsertKeyed_pairwise acc r h)

theorem find?_map_replace (o : Observation) (acc : List Observation) :
    ((acc.map fun x => if dedupKey x = dedupKey o then o else x).find?
      fun x => dedupKey x = dedupKey o) =
    (if acc.any (fun x => dedupKey x = dedupKey o) then some o else none) := by
  induction acc with
  | nil => rfl
  | cons a rest ih =>
    by_cases ha : dedupKey a = dedupKey o
    · simp only [List.map_cons, List.any_cons]
      rw [if_pos ha, List.find?_cons_of_pos _ (by simp)]
      simp [ha]
    · simp only [List.map_cons, List.any_cons]
      rw [if_neg ha, List.find?_cons_of_neg _ (by simpa using ha)]
      simp only [ih]
      simp [ha]

theorem find?_map_other (o : Observation) (k : String × String)
    (hko : ¬ (k = dedupKey o)) (acc : List Observation) :
    ((acc.map fun x => if dedupKey x = dedupKey o then o else x).find?
      fun x => dedupKey x = k) = acc.find? fun x => dedupKey x = k := by
  induction acc with
  | nil => rfl
  | cons a rest ih =>
    by_cases ha : dedupKey a = dedupKey o
    · have h1 : ¬ (dedupKey o = k) := fun h => hko h.symm
      have h2 : ¬ (dedupKey a = k) := by rw [ha]; exact h1
      rw [List.map_cons, if_pos ha]
      rw [List.find?_cons_of_neg _ (by simpa using h1)]
      rw [List.find?_cons_of_neg _ (by simpa using h2)]
      exact ih
    · rw [List.map_cons, if_neg ha]
      by_cases hak : dedupKey a = k
      · rw [List.find?_cons_of_pos _ (by simpa using hak),
          List.find?_cons_of_pos _ (by simpa using hak)]
      · rw [List.find?_cons_of_neg _ (by simpa using hak),
          List.find?_cons_of_neg _ (by simpa using hak)]
        exact ih

theorem upsertKeyed_find (acc : List Observation) (o : Observation)
    (k : String × String) :
    ((upsertKeyed acc o).find? fun x => dedupKey x = k) =
      (if dedupKey o = k then some o
       else acc.find? fun x => dedupKey x = k) := by
  unfold upsertKeyed
  split_ifs with hany hko hko
  · rw [← hko]
    exact (find?_map_replace o acc).trans (if_pos hany)
  · exact find?_map_other o k (fun h => hko h.symm) acc
  · rw [List.find?_append]
    have hnone : (acc.find? fun x => dedupKey x = k) = none := by
      rw [List.find?_eq_none]
      intro x hx
      simp only [decide_eq_true_eq]
      intro hxk
      apply hany
      simp only [List.any_eq_true]
      exact ⟨x, hx, by simp [hxk, hko]⟩
    rw [hnone]
    simp [hko]
  · rw [List.find?_append]
    have hnil : (([o] : List Observation).find? fun x => dedupKey x = k) = none := by
      simp [List.find?_cons, hko]
    rw [hnil]
    simp

theorem dedupFold_find (rows : List Observation) :
    ∀ (acc : List Observation) (k : String × String),
      ((rows.foldl upsertKeyed acc).find? fun x => dedupKey x = k) =
        ((rows.reverse.find? fun x => dedupKey x = k).or
          (acc.find? fun x => dedupKey x = k)) := by
  induction rows with
  | nil => intro acc k; simp
  | cons r rest ih =>
    intro acc k
    show ((rest.foldl upsertKeyed (upsertKeyed acc r)).find? _) = _
    rw [ih (upsertKeyed acc r) k, upsertKeyed_find acc r k]
    rw [List.reverse_cons, List.find?_append, Option.or_assoc]
    congr 1
    by_cases hrk : dedupKey r = k
    · simp [List.find?_cons, hrk]
    · simp [List.find?_cons, hrk]

theorem find?_eq_of_mem_pairwise {l : List Observation} {o : Observation}
    (hp : l.Pairwise fun a b => dedupKey a ≠ dedupKey b) (ho : o ∈ l) :
    (l.find? fun x => dedupKey x = dedupKey o) = some o := by
  induction l with
  | nil => cases ho
  | cons a rest ih =>
    rcases List.mem_cons.mp ho with rfl | ho'
    · rw [List.find?_cons_of_pos _ (by simp)]
    · have hne : dedupKey a ≠ dedupKey o := (List.pairwise_cons.mp hp).1 o ho'
      rw [List.find?_cons_of_neg _ (by simpa using hne)]
      exact ih (List.pairwise_cons.mp hp).2 ho'

/-- C8: in one collection run's final output, `(route_label, train_id)`
keys are pairwise distinct; an Observation is in the output exactly when it
is the last row with its key in processing order (later overwrites
earlier); and the output is sorted by
`(route_label, planned_departure, train_name)`. -/
theorem dedup_unique_lastwins_sorted (rows : List Observation) :
    (dedupAndSortObservations rows).Pairwise
      (fun a b => dedupKey a ≠ dedupKey b) ∧
    (∀ o, o ∈ dedupAndSortObservations rows ↔
      (rows.reverse.find? fun x => dedupKey x = dedupKey o) = some o) ∧
    (dedupAndSortObservations rows).Sorted obsLe := by
  have hfoldpw : (rows.foldl upsertKeyed []).Pairwise
      (fun a b => dedupKey a ≠ dedupKey b) :=
    dedupFold_pairwise rows [] List.Pairwise.nil
  have hperm : List.Perm (dedupAndSortObservations rows)
      (rows.foldl upsertKeyed []) := by
    unfold dedupAndSortObservations
    exact List.perm_insertionSort obsLe _
  refine ⟨?_, ?_, ?_⟩
  · exact (hperm.pairwise_iff fun h => Ne.symm h).mpr hfoldpw
  · intro o
    constructor
    · intro ho
      have ho' : o ∈ rows.foldl upsertKeyed [] := hperm.subset ho
      have hfind := find?_eq_of_mem_pairwise hfoldpw ho'
      rw [dedupFold_find rows [] (dedupKey o)] at hfind
      simpa using hfind
    · intro hfind
      have h1 : ((rows.foldl upsertKeyed []).find?
          fun x => dedupKey x = dedupKey o) = some o := by
        rw [dedupFold_find rows [] (dedupKey o)]
        simpa using hfind
      exact hperm.mem_iff.mpr (List.mem_of_find?_eq_some h1)
  · unfold dedupAndSortObservations
    exact List.sorted_insertionSort obsLe _

/-- Witness-style instance for C8: with two rows sharing the key, the later
one is what survives. -/
theorem dedup_unique_lastwins_sorted_witness :
    exIncSilent ∈ dedupAndSortObservations [exRow, exIncSilent] := by
  have h := (dedup_unique_lastwins_sorted [exRow, exIncSilent]).2.1 exIncSilent
  exact h.mpr (by decide)
